import Mathlib

/-!
Shallow embedding of the CAPM web-app's numeric core
(`CAPM_function.py` and the computation parts of `CAPM_return.py`).

Numbers are modelled as IEEE-754-style extended values `FP`: an exact
rational, `inf`, `negInf` or `nan`.  Rounding of binary floating point is
not modelled (all arithmetic is exact), but the special values and their
comparison/arithmetic semantics are, because several behaviours under
scrutiny (division by a zero first price, pandas `fillna` of the leading
`NaN`, a `NaN` beta falling through every `<` comparison) hinge on them.
A negative zero is not modelled; the model's single zero behaves as +0.
-/

namespace CAPM

/-- An IEEE-754-style double restricted to exactly representable content:
a finite rational, positive/negative infinity, or NaN. -/
inductive FP where
  | nan : FP
  | inf : FP
  | negInf : FP
  | finite : ℚ → FP
deriving DecidableEq

/-- The `<` comparison on doubles: any comparison with NaN is `false`. -/
def FP.lt : FP → FP → Bool
  | .nan, _ => false
  | _, .nan => false
  | .negInf, .negInf => false
  | .negInf, _ => true
  | _, .negInf => false
  | .inf, _ => false
  | .finite _, .inf => true
  | .finite a, .finite b => decide (a < b)

/-- IEEE subtraction on the model (exact in the finite case). -/
def FP.sub : FP → FP → FP
  | .nan, _ => .nan
  | _, .nan => .nan
  | .inf, .inf => .nan
  | .inf, _ => .inf
  | .negInf, .negInf => .nan
  | .negInf, _ => .negInf
  | .finite _, .inf => .negInf
  | .finite _, .negInf => .inf
  | .finite a, .finite b => .finite (a - b)

/-- IEEE multiplication on the model (exact in the finite case). -/
def FP.mul : FP → FP → FP
  | .nan, _ => .nan
  | _, .nan => .nan
  | .inf, .inf => .inf
  | .inf, .negInf => .negInf
  | .negInf, .inf => .negInf
  | .negInf, .negInf => .inf
  | .inf, .finite q => if q = 0 then .nan else if 0 < q then .inf else .negInf
  | .finite q, .inf => if q = 0 then .nan else if 0 < q then .inf else .negInf
  | .negInf, .finite q => if q = 0 then .nan else if 0 < q then .negInf else .inf
  | .finite q, .negInf => if q = 0 then .nan else if 0 < q then .negInf else .inf
  | .finite a, .finite b => .finite (a * b)

/-- IEEE division on the model: `x / 0` is `±inf` for nonzero finite `x`
(the model's zero is +0), `0 / 0` and `±inf / ±inf` are NaN, and a finite
value divided by an infinity is zero. -/
def FP.div : FP → FP → FP
  | .nan, _ => .nan
  | _, .nan => .nan
  | .inf, .inf => .nan
  | .inf, .negInf => .nan
  | .negInf, .inf => .nan
  | .negInf, .negInf => .nan
  | .inf, .finite q => if q < 0 then .negInf else .inf
  | .negInf, .finite q => if q < 0 then .inf else .negInf
  | .finite _, .inf => .finite 0
  | .finite _, .negInf => .finite 0
  | .finite a, .finite b =>
      if b = 0 then (if a = 0 then .nan else if 0 < a then .inf else .negInf)
      else .finite (a / b)

/-- `get_risk_interpretation(beta)` from `CAPM_return.py` (lines 53-63):
a chain of `<` comparisons against 0, 0.8, 1.2, 1.5 returning a
(category, emoji) pair.  The thresholds are exact rationals here; the
source's float literals denote the nearest doubles, which preserves every
comparison outcome the claims mention. -/
def get_risk_interpretation (beta : FP) : String × String :=
  if beta.lt (FP.finite 0) then ("Negative Beta (Inverse Market Relationship)", "🔵")
  else if beta.lt (FP.finite (4/5)) then ("Low Volatility (Defensive)", "🟢")
  else if beta.lt (FP.finite (6/5)) then ("Market Average", "🟡")
  else if beta.lt (FP.finite (3/2)) then ("High Volatility (Aggressive)", "🟠")
  else ("Very High Volatility (Very Aggressive)", "🔴")

/-- A pandas DataFrame as the pipeline uses it: a `Date` column plus
named numeric columns.  Every core function skips the `Date` column and
maps over the others, so dates are kept apart as opaque strings. -/
structure DataFrame where
  dates : List String
  cols : List (String × List FP)
deriving DecidableEq

/-- `df[name]`: the first column with the given label, if present. -/
def getColumn (df : DataFrame) (name : String) : Option (List FP) :=
  (df.cols.find? (fun c => c.1 == name)).map (fun c => c.2)

/-- One column of `normalize` (`CAPM_function.py` lines 16-21):
`df[col] / df[col].iloc[0]`, elementwise division by the first entry.
(The empty-column case cannot divide; pandas would raise `IndexError` on
`iloc[0]`, a case no claim exercises.) -/
def seriesNormalize (v : List FP) : List FP :=
  match v with
  | [] => []
  | h :: _ => v.map (fun x => x.div h)

/-- `normalize(df_2)` from `CAPM_function.py` lines 16-21: copy the frame
and divide every non-Date column by its own first value. -/
def normalize (df : DataFrame) : DataFrame :=
  { dates := df.dates, cols := df.cols.map (fun c => (c.1, seriesNormalize c.2)) }

/-- The tail of pandas `Series.pct_change()`: entry `t` is
`v[t] / v[t-1] - 1`, carried along with the previous value. -/
def seriesPctChange (prev : FP) : List FP → List FP
  | [] => []
  | p :: ps => (p.div prev).sub (FP.finite 1) :: seriesPctChange p ps

/-- `.fillna(0) * 100` applied pointwise: pandas `fillna(0)` replaces
every NaN (in particular the leading one) by 0, then the series is
multiplied by 100. -/
def fillnaZeroMul100 (x : FP) : FP :=
  (if x = FP.nan then FP.finite 0 else x).mul (FP.finite 100)

/-- One column of `daily_return`: `df[col].pct_change().fillna(0) * 100`.
`pct_change` puts NaN in the first row (no prior value); `fillna(0)`
turns it into 0. -/
def seriesDailyReturn (v : List FP) : List FP :=
  match v with
  | [] => []
  | p :: ps => (FP.nan :: seriesPctChange p ps).map fillnaZeroMul100

/-- `daily_return(df)` from `CAPM_function.py` lines 23-28. -/
def daily_return (df : DataFrame) : DataFrame :=
  { dates := df.dates, cols := df.cols.map (fun c => (c.1, seriesDailyReturn c.2)) }

/-- The Python exceptions the embedded code paths can actually raise.
None of the spec's error kinds (`InvalidInputError`,
`InsufficientDataError`, `EmptyPortfolioError`) exist in the source. -/
inductive PyErr where
  | keyError : PyErr
  | typeError : PyErr
  | zeroDivision : PyErr
  | linAlgError : PyErr
deriving DecidableEq

/-- `.values` of a column as exact rationals; `none` when some entry is
not finite (numpy's least squares raises `LinAlgError` on NaN/Inf input). -/
def asRatList : List FP → Option (List ℚ)
  | [] => some []
  | FP.finite q :: rest => (asRatList rest).map (fun l => q :: l)
  | _ => none

/-- `Σ xᵢ²`. -/
def sumSq (x : List ℚ) : ℚ := (x.map (fun t => t * t)).sum

/-- `Σ xᵢ·yᵢ`. -/
def sumXY (x y : List ℚ) : ℚ := (List.zipWith (fun a b => a * b) x y).sum

/-- Outcome of `np.polyfit(x, y, 1)` when it returns: either the unique
full-rank least-squares pair (slope, intercept), or the rank-deficient
case (constant *nonzero* `x`, which includes any nonzero single-point
fit), where numpy emits only a `RankWarning` and still returns a finite
minimum-norm least-squares pair.  That pair's exact value goes through
numpy's irrational column rescaling and no claim depends on it, so the
model records only that a finite result (not an exception) comes back.
An *all-zero* `x` is not this case: there the call raises (see
`polyfit1`). -/
inductive Polyfit1Result where
  | unique : ℚ × ℚ → Polyfit1Result
  | rankDeficient : Polyfit1Result
deriving DecidableEq

/-- `np.polyfit(x, y, 1)` in exact arithmetic: `TypeError` on an empty
vector or a length mismatch; otherwise the closed-form least-squares
solution when the Vandermonde matrix `[x | 1]` has full rank
(`n·Σx² − (Σx)² ≠ 0`, i.e. `x` not constant).  When `x` is constant,
`polyfit` first rescales each Vandermonde column by its norm
(`scale = sqrt((lhs*lhs).sum(0)); lhs /= scale`): for an all-zero `x`
(`Σx² = 0`) that scale is 0, the division fills the column with NaNs and
`np.linalg.lstsq` raises `LinAlgError` ("SVD did not converge"); for a
nonzero constant `x` the rescale is fine and the rank-deficient fit
returns with only a `RankWarning`. -/
def polyfit1 (x y : List ℚ) : Except PyErr Polyfit1Result :=
  if x.length = 0 ∨ y.length = 0 then Except.error PyErr.typeError
  else if x.length ≠ y.length then Except.error PyErr.typeError
  else if (x.length : ℚ) * sumSq x - x.sum * x.sum = 0 then
    (if sumSq x = 0 then Except.error PyErr.linAlgError
     else Except.ok Polyfit1Result.rankDeficient)
  else Except.ok (Polyfit1Result.unique
    (((x.length : ℚ) * sumXY x y - x.sum * y.sum)
        / ((x.length : ℚ) * sumSq x - x.sum * x.sum),
     (y.sum * sumSq x - x.sum * sumXY x y)
        / ((x.length : ℚ) * sumSq x - x.sum * x.sum)))

/-- `calculate_beta(stock_daily_return, stock)` from `CAPM_function.py`
lines 30-34: take the `sp500` column as `x`, the stock column as `y`, and
run `np.polyfit(x, y, 1)`, returning `(b, a)` = (slope, intercept).
A missing column is a pandas `KeyError`; a non-finite entry makes
numpy's SVD fail (`LinAlgError`). -/
def calculate_beta (df : DataFrame) (stock : String) : Except PyErr Polyfit1Result :=
  match getColumn df "sp500", getColumn df stock with
  | some xf, some yf =>
      match asRatList xf, asRatList yf with
      | some x, some y => polyfit1 x y
      | _, _ => Except.error PyErr.linAlgError
  | _, _ => Except.error PyErr.keyError

/-- The normal equations of the degree-1 least-squares fit
`y ≈ a + b·x`, modelled from the spec's words ("standard least-squares
closed-form (normal equations)"): `b·Σx² + a·Σx = Σxy` and
`b·Σx + a·n = Σy`.  Declared separately from `polyfit1` so the source's
closed form can be checked against it. -/
def IsOLSFit (x y : List ℚ) (b a : ℚ) : Prop :=
  b * sumSq x + a * x.sum = sumXY x y ∧
  b * x.sum + a * (x.length : ℚ) = y.sum

/-- `expected_return = rf + value * (rm - rf)` from `CAPM_return.py`
line 258 (`rf` set to 0 at line 252, kept as a parameter). -/
def expected_return (rf rm beta : ℚ) : ℚ := rf + beta * (rm - rf)

/-- `rm = stocks_daily_return['sp500'].mean() * 252` from
`CAPM_return.py` line 253: the market column's mean daily return
annualized by 252 trading days. -/
def annualized_market_return (marketReturns : List ℚ) : ℚ :=
  marketReturns.sum / (marketReturns.length : ℚ) * 252

/-- Python `sum(...) / len(...)`: raises `ZeroDivisionError` when the
collection is empty. -/
def pyMean (l : List ℚ) : Except PyErr ℚ :=
  if l.length = 0 then Except.error PyErr.zeroDivision
  else Except.ok (l.sum / (l.length : ℚ))

/-- `avg_beta = sum(beta.values()) / len(beta)` from `CAPM_return.py`
line 386. -/
def avg_beta (betas : List ℚ) : Except PyErr ℚ := pyMean betas

/-- `avg_return = sum(return_value) / len(return_value)` from
`CAPM_return.py` line 387. -/
def avg_return (rets : List ℚ) : Except PyErr ℚ := pyMean rets

/-- The aggregate the dashboard displays (lines 386-394): average beta,
average expected return, and the asset count. -/
structure PortfolioSummary where
  averageBeta : ℚ
  averageExpectedReturn : ℚ
  assetCount : ℕ
deriving DecidableEq

/-- The portfolio-summary block of `CAPM_return.py` lines 386-394. -/
def portfolio_summary (betas rets : List ℚ) : Except PyErr PortfolioSummary :=
  match avg_beta betas, avg_return rets with
  | Except.ok b, Except.ok r => Except.ok ⟨b, r, betas.length⟩
  | Except.error e, _ => Except.error e
  | _, Except.error e => Except.error e

/-- The final-insights branch of `CAPM_return.py` lines 401-415:
`avg_beta < 1` shows the Conservative banner, `elif avg_beta > 1.2` the
Aggressive one, else the Balanced one. -/
def portfolio_classification (avgBeta : ℚ) : String :=
  if avgBeta < 1 then "Conservative"
  else if avgBeta > 6/5 then "Aggressive"
  else "Balanced"

/-- The spec's perfectly linear dataset `y = 2x + 3`:
market returns `[0, 1, 2]`, asset returns `[3, 5, 7]`. -/
def exLinearTable : DataFrame :=
  { dates := ["d1", "d2", "d3"],
    cols := [("sp500", [FP.finite 0, FP.finite 1, FP.finite 2]),
             ("STK", [FP.finite 3, FP.finite 5, FP.finite 7])] }

/-- A 2-row table whose market column is constant (zero variance). -/
def exConstTable : DataFrame :=
  { dates := ["d1", "d2"],
    cols := [("sp500", [FP.finite 1, FP.finite 1]),
             ("STK", [FP.finite 1, FP.finite 2])] }

/-- A 2-row table whose market column is identically zero — the only
constant value a ReturnTable's market column can actually take, since
`daily_return` pins its first row to 0. -/
def exZeroConstTable : DataFrame :=
  { dates := ["d1", "d2"],
    cols := [("sp500", [FP.finite 0, FP.finite 0]),
             ("STK", [FP.finite 1, FP.finite 2])] }

/-- A price table whose column starts at price 0. -/
def exZeroFirstTable : DataFrame :=
  { dates := ["d1", "d2"],
    cols := [("A", [FP.finite 0, FP.finite 5])] }

/-- The spec's end-to-end price table: asset `[100, 110, 99]`,
market `[100, 105, 100.8]`. -/
def exPriceTable : DataFrame :=
  { dates := ["d1", "d2", "d3"],
    cols := [("AAPL", [FP.finite 100, FP.finite 110, FP.finite 99]),
             ("sp500", [FP.finite 100, FP.finite 105, FP.finite (504/5)])] }

end CAPM

namespace CAPM

theorem fp_lt_finite (a b : ℚ) : FP.lt (FP.finite a) (FP.finite b) = decide (a < b) := rfl

theorem fp_div_finite_def (a b : ℚ) :
    (FP.finite a).div (FP.finite b)
      = if b = 0 then (if a = 0 then FP.nan else if 0 < a then FP.inf else FP.negInf)
        else FP.finite (a / b) := rfl

theorem fp_div_finite (a b : ℚ) (hb : b ≠ 0) :
    (FP.finite a).div (FP.finite b) = FP.finite (a / b) := by
  rw [fp_div_finite_def, if_neg hb]

theorem fp_div_self_finite (q : ℚ) (hq : q ≠ 0) :
    (FP.finite q).div (FP.finite q) = FP.finite 1 := by
  rw [fp_div_finite q q hq, div_self hq]

theorem fp_div_zero_zero : (FP.finite 0).div (FP.finite 0) = FP.nan := by
  rw [fp_div_finite_def]
  simp

theorem fp_div_pos_zero (q : ℚ) (hq : 0 < q) :
    (FP.finite q).div (FP.finite 0) = FP.inf := by
  rw [fp_div_finite_def, if_pos rfl, if_neg hq.ne', if_pos hq]

theorem fp_sub_finite (a b : ℚ) :
    (FP.finite a).sub (FP.finite b) = FP.finite (a - b) := rfl

theorem fp_mul_finite (a b : ℚ) :
    (FP.finite a).mul (FP.finite b) = FP.finite (a * b) := rfl

theorem find_map_value (g : List FP → List FP) (name : String) :
    ∀ cols : List (String × List FP),
      (((cols.map (fun c => (c.1, g c.2))).find? (fun c => c.1 == name)).map (fun c => c.2))
        = ((cols.find? (fun c => c.1 == name)).map (fun c => c.2)).map g := by
  intro cols
  simp only [List.find?_map, Option.map_map]
  rfl

theorem getColumn_normalize (df : DataFrame) (name : String) :
    getColumn (normalize df) name = (getColumn df name).map seriesNormalize := by
  simp only [getColumn, normalize]
  exact find_map_value seriesNormalize name df.cols

theorem getColumn_daily_return (df : DataFrame) (name : String) :
    getColumn (daily_return df) name = (getColumn df name).map seriesDailyReturn := by
  simp only [getColumn, daily_return]
  exact find_map_value seriesDailyReturn name df.cols

theorem map_cols_fst (g : List FP → List FP) :
    ∀ cols : List (String × List FP),
      (cols.map (fun c => (c.1, g c.2))).map Prod.fst = cols.map Prod.fst := by
  intro cols
  induction cols with
  | nil => rfl
  | cons c rest ih => simp [ih]

/-- Claim C2: the CAPM engine computes
`expectedReturn = rf + beta × (rm − rf)` with `rm` the market column's
mean daily return times 252; with `rf = 0` the value is `beta·rm`, and
at `rf = 0`, `rm = 10`, `beta = 1.5` it is exactly 15. -/
theorem expected_return_capm :
    (∀ rf beta : ℚ, ∀ mkt : List ℚ,
      expected_return rf (annualized_market_return mkt) beta
        = rf + beta * (mkt.sum / (mkt.length : ℚ) * 252 - rf)) ∧
    (∀ rm beta : ℚ, expected_return 0 rm beta = beta * rm) ∧
    expected_return 0 10 (3/2) = 15 := by
  refine ⟨fun rf beta mkt => rfl, fun rm beta => ?_, by norm_num [expected_return]⟩
  simp [expected_return]

/-- Claim C6: the portfolio aggregator returns the arithmetic mean of the
betas, the arithmetic mean of the expected returns and the asset count,
and classifies the average beta with the asymmetric thresholds
`< 1` Conservative, `> 1.2` Aggressive, otherwise Balanced. -/
theorem portfolio_summary_means (betas rets : List ℚ)
    (hb : betas ≠ []) (hr : rets ≠ []) :
    portfolio_summary betas rets
      = Except.ok ⟨betas.sum / (betas.length : ℚ), rets.sum / (rets.length : ℚ),
          betas.length⟩ ∧
    (∀ ab : ℚ,
      (ab < 1 → portfolio_classification ab = "Conservative") ∧
      (ab > 6/5 → portfolio_classification ab = "Aggressive") ∧
      (1 ≤ ab → ab ≤ 6/5 → portfolio_classification ab = "Balanced")) := by
  constructor
  · have hb' : betas.length ≠ 0 := fun h => hb (List.length_eq_zero.mp h)
    have hr' : rets.length ≠ 0 := fun h => hr (List.length_eq_zero.mp h)
    simp [portfolio_summary, avg_beta, avg_return, pyMean, hb', hr']
  · intro ab
    refine ⟨fun h => ?_, fun h => ?_, fun h1 h2 => ?_⟩ <;>
      unfold portfolio_classification <;>
      split_ifs <;> first | rfl | linarith

/-- Witness for C6: on betas `[0.8, 1.0, 1.4]` (expected returns
`[1, 2, 3]`) the average beta is `16/15 = 1.0666…` and the
classification is "Balanced". -/
theorem portfolio_summary_means_witness :
    portfolio_summary [4/5, 1, 7/5] [1, 2, 3]
      = Except.ok ⟨16/15, 2, 3⟩ ∧
    portfolio_classification (16/15) = "Balanced" := by
  have h := portfolio_summary_means [4/5, 1, 7/5] [1, 2, 3]
    (by simp) (by simp)
  refine ⟨?_, (h.2 (16/15)).2.2 (by norm_num) (by norm_num)⟩
  rw [h.1]
  norm_num

/-- Claim C9 counterexample: aggregating an empty portfolio reaches the
division `sum(...) / len(...)` and fails with Python's
`ZeroDivisionError`, not with an `EmptyPortfolioError` (no such error
kind exists anywhere in the code). -/
theorem portfolio_empty_cex :
    portfolio_summary [] [] = Except.error PyErr.zeroDivision := rfl

/-- Claim C9 amended: given an empty set of per-asset results the
aggregation performs `sum/len` and raises `ZeroDivisionError`; it does
not return a numeric result, and no `EmptyPortfolioError` exists. -/
theorem portfolio_empty_zero_division :
    avg_beta [] = Except.error PyErr.zeroDivision ∧
    avg_return [] = Except.error PyErr.zeroDivision ∧
    portfolio_summary [] [] = Except.error PyErr.zeroDivision :=
  ⟨rfl, rfl, rfl⟩

/-- Claim C8 counterexample: on a table whose column starts at price 0,
`normalize` does not reject the input — it performs the division and
returns the table `[0/0, 5/0] = [NaN, Inf]`, with no error of any kind. -/
theorem normalize_zero_first_cex :
    normalize exZeroFirstTable
      = { dates := ["d1", "d2"], cols := [("A", [FP.nan, FP.inf])] } := by
  have h0 := fp_div_zero_zero
  have h5 := fp_div_pos_zero 5 (by norm_num)
  simp [normalize, exZeroFirstTable, seriesNormalize, h0, h5]

/-- Claim C8 amended: `normalize` performs no zero check on the first
value.  A column whose first entry is 0 is divided elementwise by 0
anyway: the zero entries become NaN and the positive entries become Inf;
no `InvalidInputError` (or any error) is signalled. -/
theorem normalize_zero_first_divides (df : DataFrame) (name : String)
    (rest : List FP) (h : getColumn df name = some (FP.finite 0 :: rest)) :
    getColumn (normalize df) name
      = some ((FP.finite 0 :: rest).map (fun x => x.div (FP.finite 0))) ∧
    (FP.finite 0).div (FP.finite 0) = FP.nan ∧
    (∀ q : ℚ, 0 < q → (FP.finite q).div (FP.finite 0) = FP.inf) := by
  refine ⟨?_, fp_div_zero_zero, fun q hq => fp_div_pos_zero q hq⟩
  rw [getColumn_normalize, h]
  rfl

/-- Witness for C8 (amended): on the concrete table with column
`[0, 5]`, normalize yields `[NaN, Inf]`. -/
theorem normalize_zero_first_divides_witness :
    getColumn exZeroFirstTable "A" = some [FP.finite 0, FP.finite 5] ∧
    getColumn (normalize exZeroFirstTable) "A" = some [FP.nan, FP.inf] := by
  have h : getColumn exZeroFirstTable "A" = some (FP.finite 0 :: [FP.finite 5]) := rfl
  have h2 := normalize_zero_first_divides exZeroFirstTable "A" [FP.finite 5] h
  refine ⟨h, ?_⟩
  rw [h2.1]
  rw [show ((FP.finite 0 :: [FP.finite 5]).map (fun x => x.div (FP.finite 0)))
        = [(FP.finite 0).div (FP.finite 0), (FP.finite 5).div (FP.finite 0)] from rfl,
      h2.2.1, h2.2.2 5 (by norm_num)]

/-- Claim C4: `normalize` divides each non-date column elementwise by
that column's own first value; when the first value is a nonzero finite
`q` the first row of the result is exactly 1, and the `Date` column is
untouched. -/
theorem normalize_first_row_one (df : DataFrame) (name : String) (q : ℚ)
    (rest : List FP) (hq : q ≠ 0)
    (h : getColumn df name = some (FP.finite q :: rest)) :
    getColumn (normalize df) name
      = some (FP.finite 1 :: rest.map (fun x => x.div (FP.finite q))) ∧
    (normalize df).dates = df.dates := by
  refine ⟨?_, rfl⟩
  rw [getColumn_normalize, h]
  rw [show Option.map seriesNormalize (some (FP.finite q :: rest))
        = some (seriesNormalize (FP.finite q :: rest)) from rfl]
  rw [show seriesNormalize (FP.finite q :: rest)
        = (FP.finite q).div (FP.finite q) :: rest.map (fun x => x.div (FP.finite q)) from rfl,
      fp_div_self_finite q hq]

theorem seriesPctChange_length (prev : FP) (ps : List FP) :
    (seriesPctChange prev ps).length = ps.length := by
  induction ps generalizing prev with
  | nil => rfl
  | cons p ps ih => simp [seriesPctChange, ih]

theorem seriesDailyReturn_length (v : List FP) :
    (seriesDailyReturn v).length = v.length := by
  cases v with
  | nil => rfl
  | cons p ps => simp [seriesDailyReturn, seriesPctChange_length]

theorem fillna_nan : fillnaZeroMul100 FP.nan = FP.finite 0 := by
  rw [show fillnaZeroMul100 FP.nan = (FP.finite 0).mul (FP.finite 100) from rfl,
    fp_mul_finite]
  norm_num

theorem fillna_finite (z : ℚ) :
    fillnaZeroMul100 (FP.finite z) = FP.finite (z * 100) := by
  rw [show fillnaZeroMul100 (FP.finite z) = (FP.finite z).mul (FP.finite 100) from by
        simp [fillnaZeroMul100],
      fp_mul_finite]

theorem seriesPctChange_get (ps : List FP) :
    ∀ (prev cur prv : FP) (t : ℕ),
      ps.get? t = some cur → (prev :: ps).get? t = some prv →
      (seriesPctChange prev ps).get? t = some ((cur.div prv).sub (FP.finite 1)) := by
  induction ps with
  | nil =>
      intro prev cur prv t h _
      simp at h
  | cons p ps ih =>
      intro prev cur prv t hc hp
      cases t with
      | zero =>
          simp only [List.get?_cons_zero, Option.some.injEq] at hc hp
          subst hc
          subst hp
          rfl
      | succ t =>
          simp only [List.get?_cons_succ] at hc hp
          exact ih p cur prv t hc hp

/-- Claim C3: `daily_return` keeps the table's shape (dates and column
labels, and each column's length); in every column the first row is
exactly 0 (never NaN — the leading NaN of `pct_change` is filled), and
at each later row `t+1`, for finite prices with `p[t] ≠ 0`, the value is
`100 × (p[t+1] − p[t]) / p[t]`. -/
theorem daily_return_spec (df : DataFrame) :
    (daily_return df).dates = df.dates ∧
    (daily_return df).cols.map Prod.fst = df.cols.map Prod.fst ∧
    (∀ (name : String) (v : List FP), getColumn df name = some v →
      ∃ w, getColumn (daily_return df) name = some w ∧
        w.length = v.length ∧
        (v ≠ [] → w.get? 0 = some (FP.finite 0)) ∧
        (∀ (t : ℕ) (pPrev pCur : ℚ), v.get? t = some (FP.finite pPrev) →
          v.get? (t+1) = some (FP.finite pCur) → pPrev ≠ 0 →
          w.get? (t+1) = some (FP.finite (100 * (pCur - pPrev) / pPrev)))) := by
  refine ⟨rfl, map_cols_fst seriesDailyReturn df.cols, ?_⟩
  intro name v hv
  refine ⟨seriesDailyReturn v, ?_, seriesDailyReturn_length v, ?_, ?_⟩
  · rw [getColumn_daily_return, hv]
    rfl
  · intro hne
    cases v with
    | nil => exact absurd rfl hne
    | cons p ps =>
        rw [show (seriesDailyReturn (p :: ps)).get? 0
              = some (fillnaZeroMul100 FP.nan) from rfl, fillna_nan]
  · intro t pPrev pCur hPrev hCur hne
    cases v with
    | nil => simp at hPrev
    | cons p ps =>
        have hCur2 : ps.get? t = some (FP.finite pCur) := by
          simpa using hCur
        have hpct := seriesPctChange_get ps p (FP.finite pCur) (FP.finite pPrev) t hCur2 hPrev
        rw [show (seriesDailyReturn (p :: ps)).get? (t+1)
              = ((seriesPctChange p ps).get? t).map fillnaZeroMul100 from by
            rw [show seriesDailyReturn (p :: ps)
                  = (FP.nan :: seriesPctChange p ps).map fillnaZeroMul100 from rfl]
            rw [List.get?_map, List.get?_cons_succ]]
        rw [hpct, fp_div_finite pCur pPrev hne, fp_sub_finite]
        rw [show Option.map fillnaZeroMul100 (some (FP.finite (pCur / pPrev - 1)))
              = some (fillnaZeroMul100 (FP.finite (pCur / pPrev - 1))) from rfl,
          fillna_finite]
        have harith : (pCur / pPrev - 1) * 100 = 100 * (pCur - pPrev) / pPrev := by
          field_simp
          ring
        rw [harith]

/-- Witness for C3 on the spec's end-to-end table: the market price
column `[100, 105, 100.8]` turns into daily returns `[0, 5, -4]`. -/
theorem daily_return_spec_witness :
    getColumn (daily_return exPriceTable) "sp500"
      = some [FP.finite 0, FP.finite 5, FP.finite (-4)] := by
  have hcol : getColumn exPriceTable "sp500"
      = some [FP.finite 100, FP.finite 105, FP.finite (504/5)] := rfl
  obtain ⟨w, hw, hlen, hhead, hidx⟩ := (daily_return_spec exPriceTable).2.2 "sp500" _ hcol
  have h0 := hhead (by simp)
  have h1 := hidx 0 100 105 rfl rfl (by norm_num)
  have h2 := hidx 1 105 (504/5) rfl rfl (by norm_num)
  rw [hw]
  rcases w with _ | ⟨a, _ | ⟨b, _ | ⟨c, _ | _⟩⟩⟩ <;> simp at hlen
  simp only [List.get?_cons_zero, List.get?_cons_succ, Option.some.injEq] at h0 h1 h2
  norm_num at h1 h2
  rw [h0, h1, h2]

/-- Witness for C4: the price column `[100, 110, 99]` normalizes to
`[1, 1.1, 0.99]`, first row exactly 1. -/
theorem normalize_first_row_one_witness :
    getColumn (normalize exPriceTable) "AAPL"
      = some [FP.finite 1, FP.finite (11/10), FP.finite (99/100)] := by
  have h := normalize_first_row_one exPriceTable "AAPL" 100
    [FP.finite 110, FP.finite 99] (by norm_num) rfl
  rw [h.1]
  rw [show ([FP.finite 110, FP.finite 99].map (fun x => x.div (FP.finite 100)))
        = [(FP.finite 110).div (FP.finite 100), (FP.finite 99).div (FP.finite 100)] from rfl,
      fp_div_finite 110 100 (by norm_num), fp_div_finite 99 100 (by norm_num)]
  norm_num

/-- Claim C5: for every finite beta the risk classification follows the
fixed thresholds, inclusive on the lower bound and exclusive on the upper
bound: `beta < 0` Negative, `0 ≤ beta < 0.8` Low, `0.8 ≤ beta < 1.2`
Market Average, `1.2 ≤ beta < 1.5` High, `beta ≥ 1.5` Very High. -/
theorem get_risk_interpretation_thresholds (q : ℚ) :
    (q < 0 → (get_risk_interpretation (FP.finite q)).1 =
      "Negative Beta (Inverse Market Relationship)") ∧
    (0 ≤ q → q < 4/5 → (get_risk_interpretation (FP.finite q)).1 =
      "Low Volatility (Defensive)") ∧
    (4/5 ≤ q → q < 6/5 → (get_risk_interpretation (FP.finite q)).1 =
      "Market Average") ∧
    (6/5 ≤ q → q < 3/2 → (get_risk_interpretation (FP.finite q)).1 =
      "High Volatility (Aggressive)") ∧
    (3/2 ≤ q → (get_risk_interpretation (FP.finite q)).1 =
      "Very High Volatility (Very Aggressive)") := by
  refine ⟨?_, ?_, ?_, ?_, ?_⟩ <;> intros <;>
    simp [get_risk_interpretation, FP.lt] <;>
    split_ifs <;> first | rfl | linarith

/-- Witness for C5 at the boundary pair named by the claim:
beta = 0.79 is classified "Low Volatility (Defensive)" and beta = 0.80
"Market Average". -/
theorem get_risk_interpretation_thresholds_witness :
    ((0:ℚ) ≤ 79/100 ∧ (79:ℚ)/100 < 4/5 ∧
      (get_risk_interpretation (FP.finite (79/100))).1 = "Low Volatility (Defensive)") ∧
    ((4:ℚ)/5 ≤ 80/100 ∧ (80:ℚ)/100 < 6/5 ∧
      (get_risk_interpretation (FP.finite (80/100))).1 = "Market Average") :=
  ⟨⟨by norm_num, by norm_num,
      (get_risk_interpretation_thresholds (79/100)).2.1 (by norm_num) (by norm_num)⟩,
   ⟨by norm_num, by norm_num,
      (get_risk_interpretation_thresholds (80/100)).2.2.1 (by norm_num) (by norm_num)⟩⟩

/-- Claim C10: `get_risk_interpretation` is total and always lands in one
of the five categories; every `<` comparison against NaN is false, so a
NaN beta silently falls through to the final category
"Very High Volatility (Very Aggressive)" instead of signaling an error. -/
theorem get_risk_interpretation_total_nan :
    (∀ b : FP, (get_risk_interpretation b).1 ∈
      ["Negative Beta (Inverse Market Relationship)", "Low Volatility (Defensive)",
       "Market Average", "High Volatility (Aggressive)",
       "Very High Volatility (Very Aggressive)"]) ∧
    (∀ c : FP, FP.lt FP.nan c = false) ∧
    get_risk_interpretation FP.nan =
      ("Very High Volatility (Very Aggressive)", "🔴") := by
  refine ⟨?_, ?_, rfl⟩
  · intro b
    unfold get_risk_interpretation
    split
    · simp
    · split
      · simp
      · split
        · simp
        · split <;> simp
  · intro c
    cases c <;> rfl

theorem sum_map_sq_nonneg (l : List ℚ) (m : ℚ) :
    0 ≤ (l.map (fun t => (t - m)^2)).sum := by
  induction l with
  | nil => simp
  | cons a l ih =>
      simp only [List.map_cons, List.sum_cons]
      exact add_nonneg (sq_nonneg _) ih

theorem sum_map_sq_eq_zero (l : List ℚ) (m : ℚ)
    (h : (l.map (fun t => (t - m)^2)).sum = 0) : ∀ t ∈ l, t = m := by
  induction l with
  | nil => simp
  | cons a l ih =>
      simp only [List.map_cons, List.sum_cons] at h
      have h1 : (0:ℚ) ≤ (a - m)^2 := sq_nonneg _
      have h2 : 0 ≤ (l.map (fun t => (t - m)^2)).sum := sum_map_sq_nonneg l m
      have ha : (a - m)^2 = 0 := by linarith
      have hs : (l.map (fun t => (t - m)^2)).sum = 0 := by linarith
      intro t ht
      rcases List.mem_cons.mp ht with h | h
      · subst h
        have h3 := (pow_eq_zero_iff two_ne_zero).mp ha
        linarith
      · exact ih hs t h

theorem sum_sq_dev (l : List ℚ) (m : ℚ) :
    (l.map (fun t => (t - m)^2)).sum
      = sumSq l - 2 * m * l.sum + (l.length : ℚ) * m^2 := by
  induction l with
  | nil => simp [sumSq]
  | cons a l ih =>
      simp only [sumSq, List.map_cons, List.sum_cons, List.length_cons] at ih ⊢
      push_cast
      linear_combination ih

/-- The full-rank condition of the degree-1 Vandermonde system:
`n·Σx² − (Σx)²` is `n` times the sum of squared deviations from the
mean, hence nonzero as soon as two entries of `x` differ. -/
theorem det_ne_zero_of_nonconst (x : List ℚ) (a b : ℚ)
    (ha : a ∈ x) (hb : b ∈ x) (hab : a ≠ b) :
    (x.length : ℚ) * sumSq x - x.sum * x.sum ≠ 0 := by
  have hlen : x.length ≠ 0 := by
    intro h
    rw [List.length_eq_zero] at h
    subst h
    simp at ha
  have hn : (0:ℚ) < (x.length : ℚ) := by
    exact_mod_cast Nat.pos_of_ne_zero hlen
  have hm : x.sum / (x.length : ℚ) * (x.length : ℚ) = x.sum :=
    div_mul_cancel₀ x.sum (ne_of_gt hn)
  have hkey : (x.length : ℚ) * ((x.map (fun t => (t - x.sum / (x.length : ℚ))^2)).sum)
      = (x.length : ℚ) * sumSq x - x.sum * x.sum := by
    rw [sum_sq_dev]
    linear_combination (x.sum / (x.length : ℚ) * (x.length : ℚ) - x.sum) * hm
  have hpos : 0 < (x.map (fun t => (t - x.sum / (x.length : ℚ))^2)).sum := by
    rcases lt_or_eq_of_le (sum_map_sq_nonneg x (x.sum / (x.length : ℚ))) with h | h
    · exact h
    · exfalso
      have hall := sum_map_sq_eq_zero x (x.sum / (x.length : ℚ)) h.symm
      exact hab ((hall a ha).trans (hall b hb).symm)
  intro hzero
  rw [← hkey] at hzero
  have : 0 < (x.length : ℚ) * ((x.map (fun t => (t - x.sum / (x.length : ℚ))^2)).sum) :=
    mul_pos hn hpos
  linarith

theorem sum_const_list (x : List ℚ) (c : ℚ) (h : ∀ a ∈ x, a = c) :
    x.sum = (x.length : ℚ) * c := by
  induction x with
  | nil => simp
  | cons a l ih =>
      simp only [List.sum_cons, List.length_cons]
      rw [h a (List.mem_cons_self a l),
        ih (fun b hb => h b (List.mem_cons_of_mem a hb))]
      push_cast
      ring

theorem sumSq_const_list (x : List ℚ) (c : ℚ) (h : ∀ a ∈ x, a = c) :
    sumSq x = (x.length : ℚ) * (c * c) := by
  induction x with
  | nil => simp [sumSq]
  | cons a l ih =>
      simp only [sumSq, List.map_cons, List.sum_cons, List.length_cons] at ih ⊢
      rw [h a (List.mem_cons_self a l),
        ih (fun b hb => h b (List.mem_cons_of_mem a hb))]
      push_cast
      ring

/-- Claim C1: with at least 2 rows and a non-constant market column,
`calculate_beta` returns the slope and intercept of the ordinary
least-squares fit `y ≈ alpha + beta·x` over all rows: the returned pair
satisfies the normal equations, and it is the unique pair that does. -/
theorem calculate_beta_ols (df : DataFrame) (stock : String)
    (xf yf : List FP) (x y : List ℚ) (a b : ℚ)
    (hxc : getColumn df "sp500" = some xf) (hxr : asRatList xf = some x)
    (hyc : getColumn df stock = some yf) (hyr : asRatList yf = some y)
    (hlen : x.length = y.length) (hrows : 2 ≤ x.length)
    (ha : a ∈ x) (hb : b ∈ x) (hab : a ≠ b) :
    ∃ beta alpha : ℚ,
      calculate_beta df stock = Except.ok (Polyfit1Result.unique (beta, alpha)) ∧
      IsOLSFit x y beta alpha ∧
      (∀ beta2 alpha2 : ℚ, IsOLSFit x y beta2 alpha2 → beta2 = beta ∧ alpha2 = alpha) := by
  have hd : (x.length : ℚ) * sumSq x - x.sum * x.sum ≠ 0 :=
    det_ne_zero_of_nonconst x a b ha hb hab
  refine ⟨((x.length : ℚ) * sumXY x y - x.sum * y.sum)
            / ((x.length : ℚ) * sumSq x - x.sum * x.sum),
          (y.sum * sumSq x - x.sum * sumXY x y)
            / ((x.length : ℚ) * sumSq x - x.sum * x.sum), ?_, ?_, ?_⟩
  · simp only [calculate_beta, hxc, hyc, hxr, hyr]
    unfold polyfit1
    rw [if_neg, if_neg, if_neg hd]
    · exact fun h => h hlen
    · rw [← hlen]
      have h0 : x.length ≠ 0 := by omega
      simp [h0]
  · constructor
    · field_simp
      ring
    · field_simp
      ring
  · intro beta2 alpha2 hfit
    obtain ⟨e1, e2⟩ := hfit
    constructor
    · field_simp
      linear_combination (x.length : ℚ) * e1 - x.sum * e2
    · field_simp
      linear_combination sumSq x * e2 - x.sum * e1

/-- Witness for C1 on the spec's synthetic dataset `y = 2x + 3`
(x = [0,1,2], y = [3,5,7]): the code returns beta = 2, alpha = 3, and
(2, 3) satisfies the normal equations. -/
theorem calculate_beta_ols_witness :
    calculate_beta exLinearTable "STK" = Except.ok (Polyfit1Result.unique (2, 3)) ∧
    IsOLSFit [0, 1, 2] [3, 5, 7] 2 3 := by
  have hfit23 : IsOLSFit [0, 1, 2] [3, 5, 7] 2 3 := by
    constructor <;> norm_num [sumSq, sumXY]
  obtain ⟨beta, alpha, hcalc, hfit, huniq⟩ :=
    calculate_beta_ols exLinearTable "STK"
      [FP.finite 0, FP.finite 1, FP.finite 2] [FP.finite 3, FP.finite 5, FP.finite 7]
      [0, 1, 2] [3, 5, 7] 0 1 rfl rfl rfl rfl rfl (by norm_num)
      (by simp) (by simp) (by norm_num)
  obtain ⟨hb2, ha3⟩ := huniq 2 3 hfit23
  rw [← hb2, ← ha3] at hcalc
  exact ⟨hcalc, hfit23⟩

/-- Claim C7 counterexample: on a 2-row table whose market column is the
constant `[1, 1]` (zero variance), `calculate_beta` does not fail with
`InvalidInputError` — numpy only emits a `RankWarning` and the call
returns a finite rank-deficient least-squares result, no exception. -/
theorem calculate_beta_const_market_cex :
    calculate_beta exConstTable "STK" = Except.ok Polyfit1Result.rankDeficient := by
  simp only [calculate_beta,
    show getColumn exConstTable "sp500" = some [FP.finite 1, FP.finite 1] from rfl,
    show getColumn exConstTable "STK" = some [FP.finite 1, FP.finite 2] from rfl,
    show asRatList [FP.finite 1, FP.finite 1] = some [1, 1] from rfl,
    show asRatList [FP.finite 1, FP.finite 2] = some [1, 2] from rfl]
  unfold polyfit1
  norm_num [sumSq, sumXY]

/-- Claim C7 amended: `calculate_beta` performs no input validation and
the source defines no `InsufficientDataError`/`InvalidInputError`.  On a
constant (zero-variance) market column with constant value `c`: if
`c ≠ 0`, numpy emits only a `RankWarning` and returns the finite
rank-deficient least-squares result, signalling no error; if `c = 0`
(the only constant a ReturnTable's market column can take, its first row
being pinned to 0 — and the value of any 1-row ReturnTable), numpy's
column rescale divides by a zero norm and `lstsq` raises `LinAlgError`,
not `InvalidInputError`.  With zero rows numpy raises its own
`TypeError`, not `InsufficientDataError`. -/
theorem calculate_beta_no_validation (df : DataFrame) (stock : String)
    (xf yf : List FP) (x y : List ℚ) (c : ℚ)
    (hxc : getColumn df "sp500" = some xf) (hxr : asRatList xf = some x)
    (hyc : getColumn df stock = some yf) (hyr : asRatList yf = some y)
    (hlen : x.length = y.length) (hne : x ≠ [])
    (hconst : ∀ a ∈ x, a = c) :
    (c ≠ 0 → calculate_beta df stock = Except.ok Polyfit1Result.rankDeficient) ∧
    (c = 0 → calculate_beta df stock = Except.error PyErr.linAlgError) ∧
    polyfit1 [] [] = Except.error PyErr.typeError := by
  have hlen0 : x.length ≠ 0 := fun h => hne (List.length_eq_zero.mp h)
  have hnq : (x.length : ℚ) ≠ 0 := by
    exact_mod_cast hlen0
  have hd : (x.length : ℚ) * sumSq x - x.sum * x.sum = 0 := by
    rw [sum_const_list x c hconst, sumSq_const_list x c hconst]
    ring
  have hreduce : calculate_beta df stock
      = (if sumSq x = 0 then Except.error PyErr.linAlgError
         else Except.ok Polyfit1Result.rankDeficient) := by
    simp only [calculate_beta, hxc, hyc, hxr, hyr]
    unfold polyfit1
    rw [if_neg, if_neg (fun h => h hlen), if_pos hd]
    rw [← hlen]
    simp [hlen0]
  refine ⟨fun hc => ?_, fun hc => ?_, rfl⟩
  · have hs : sumSq x ≠ 0 := by
      rw [sumSq_const_list x c hconst]
      exact mul_ne_zero hnq (mul_ne_zero hc hc)
    rw [hreduce, if_neg hs]
  · have hs : sumSq x = 0 := by
      rw [sumSq_const_list x c hconst, hc]
      ring
    rw [hreduce, if_pos hs]

/-- Witness for C7 (amended) at the two concrete constant-market tables:
market `[1, 1]` returns the rank-deficient fit with no error, market
`[0, 0]` raises `LinAlgError`. -/
theorem calculate_beta_no_validation_witness :
    calculate_beta exConstTable "STK" = Except.ok Polyfit1Result.rankDeficient ∧
    calculate_beta exZeroConstTable "STK" = Except.error PyErr.linAlgError ∧
    polyfit1 [] [] = Except.error PyErr.typeError := by
  have h1 := calculate_beta_no_validation exConstTable "STK"
    [FP.finite 1, FP.finite 1] [FP.finite 1, FP.finite 2] [1, 1] [1, 2] 1
    rfl rfl rfl rfl rfl (by simp) (by simp)
  have h2 := calculate_beta_no_validation exZeroConstTable "STK"
    [FP.finite 0, FP.finite 0] [FP.finite 1, FP.finite 2] [0, 0] [1, 2] 0
    rfl rfl rfl rfl rfl (by simp) (by simp)
  exact ⟨h1.1 (by norm_num), h2.2.1 rfl, h1.2.2⟩

end CAPM
